import Mathlib

/-!
Verification of the wow-auto-shot pixel-automation program (src/main.py,
src/config.py) against its natural-language specification.

The development shallowly embeds the program: the pure functions
(`classify_pixel`, the sampler arithmetic of `read_pixel_state`) become Lean
functions on `Nat`; the debounce logic and the main control loop of `main`
become explicit state-passing step functions; asynchronous hotkey/tray
commands become per-iteration inputs applied at tick granularity (the spec's
own one-tick staleness window); a frame-grab failure (mss raising on
`sct.grab`) becomes a `none` grab input.
-/

/-- Pixel states, mirroring `class PixelState(Enum)` in src/main.py. -/
inductive PixelState where
  | GREEN
  | RED
  | BLACK
  | UNKNOWN
deriving DecidableEq, Repr, Fintype

/-- Configuration, mirroring `class Config` in src/main.py (the float
`poll_rate` field only paces the loop and is not modelled; key names are
irrelevant to the modelled behaviour and omitted). -/
structure Config where
  pixel_x : Nat := 960
  pixel_y : Nat := 540
  sample_size : Nat := 3
  green_threshold : Nat := 150
  red_threshold : Nat := 150
  off_channel_max : Nat := 100
  debounce_frames : Nat := 2
deriving DecidableEq, Repr

/-- The default configuration values of src/main.py. -/
def defaultConfig : Config := {}

/-- Mirrors `classify_pixel(r, g, b, cfg)` of src/main.py lines 78-87:
an if/elif chain, first match wins. -/
def classify_pixel (r g b : Nat) (cfg : Config) : PixelState :=
  if cfg.green_threshold < g ∧ r < cfg.off_channel_max then
    PixelState.GREEN
  else if cfg.red_threshold < r ∧ g < cfg.off_channel_max then
    PixelState.RED
  else if r < 50 ∧ g < 50 ∧ b < 50 then
    PixelState.BLACK
  else
    PixelState.UNKNOWN

/-- Observable key events sent to the virtual input device
(`pydirectinput.keyDown` / `pydirectinput.keyUp` on `cfg.move_key`). -/
inductive KeyEvent where
  | down
  | up
deriving DecidableEq, Repr, Fintype

/-- The actuation decision of src/main.py lines 299-304, run when a debounced
transition is confirmed: given the newly confirmed state and the held-key
flag `is_moving`, returns the key events issued and the new flag. -/
def applyActuation (new : PixelState) (is_moving : Bool) : List KeyEvent × Bool :=
  if new = PixelState.GREEN ∧ is_moving = false then
    ([KeyEvent.down], true)
  else if (new = PixelState.RED ∨ new = PixelState.BLACK ∨ new = PixelState.UNKNOWN)
      ∧ is_moving = true then
    ([KeyEvent.up], false)
  else
    ([], is_moving)

/-- One pixel sample as returned by the frame-grabber collaborator (mss).
The index comment at src/main.py line 101 fixes the layout: index 0 is the
blue channel, index 1 green, index 2 red, index 3 alpha. -/
structure BGRA where
  px0 : Nat
  px1 : Nat
  px2 : Nat
  px3 : Nat
deriving DecidableEq, Repr

/-- A grabbed frame: rows of pixels, addressed as `img.pixel(x, y)`. -/
def Frame : Type := List (List BGRA)

/-- Mirrors `img.pixel(x, y)` on a grabbed frame. -/
def framePixel (img : Frame) (x y : Nat) : BGRA :=
  (img.getD y []).getD x ⟨0, 0, 0, 0⟩

/-- The averaging arithmetic of `read_pixel_state` (src/main.py lines
100-113): accumulate (total_b, total_g, total_r) over y then x in
`range(sample_size)`, then integer-divide each by `sample_size ** 2`;
returns (avg_r, avg_g, avg_b). -/
def sampleAvg (img : Frame) (cfg : Config) : Nat × Nat × Nat :=
  let count := cfg.sample_size * cfg.sample_size
  let t :=
    (List.range cfg.sample_size).foldl (fun acc y =>
      (List.range cfg.sample_size).foldl (fun acc2 x =>
        (acc2.1 + (framePixel img x y).px0,
         acc2.2.1 + (framePixel img x y).px1,
         acc2.2.2 + (framePixel img x y).px2)) acc)
      (0, 0, 0)
  (t.2.2 / count, t.2.1 / count, t.1 / count)

/-- Mirrors `read_pixel_state(sct, cfg)` (src/main.py lines 90-115) applied
to an already-grabbed frame: average the sample area, then classify. -/
def read_pixel_state (img : Frame) (cfg : Config) : PixelState :=
  classify_pixel (sampleAvg img cfg).1 (sampleAvg img cfg).2.1 (sampleAvg img cfg).2.2 cfg

/-- The debounce fields of `AppState` (src/main.py lines 67-71):
`pending_state`, `debounce_count` and the last confirmed `current_state`. -/
structure DebSt where
  pending_state : PixelState
  debounce_count : Nat
  current_state : PixelState
deriving DecidableEq, Repr

/-- Initial debounce fields from `AppState.__init__`:
pending UNKNOWN, count 0, confirmed UNKNOWN. -/
def debInit : DebSt :=
  ⟨PixelState.UNKNOWN, 0, PixelState.UNKNOWN⟩

/-- One debounce observation, mirroring src/main.py lines 289-296: if the raw
state matches the pending state the count is incremented, otherwise the
pending state resets to the raw state with count 1; the transition is
confirmed (flag true, `current_state` updated) exactly when the count reaches
`debounce_frames` and the raw state differs from the confirmed state. -/
def observe (cfg : Config) (st : DebSt) (new : PixelState) : DebSt × Bool :=
  let p := if new = st.pending_state then st.pending_state else new
  let c := if new = st.pending_state then st.debounce_count + 1 else 1
  if cfg.debounce_frames ≤ c ∧ new ≠ st.current_state then
    (⟨p, c, new⟩, true)
  else
    (⟨p, c, st.current_state⟩, false)

/-- Debounce state after feeding a whole list of raw readings. -/
def debRun (cfg : Config) (st : DebSt) (l : List PixelState) : DebSt :=
  l.foldl (fun s x => (observe cfg s x).1) st

/-- The per-reading confirmation flags of a raw stream. -/
def debFlags (cfg : Config) (st : DebSt) : List PixelState → List Bool
  | [] => []
  | a :: rest => (observe cfg st a).2 :: debFlags cfg (observe cfg st a).1 rest

/-- Length of the leading block of elements equal to `a`. -/
def leadRunA (a : PixelState) : List PixelState → Nat
  | [] => 0
  | x :: rest => if x = a then leadRunA a rest + 1 else 0

/-- Length of the trailing block of elements equal to `a`. -/
def trailCount (a : PixelState) (l : List PixelState) : Nat :=
  leadRunA a l.reverse

/-- Spec-side condition, following the spec's words: the last `d` raw
readings of `l` exist and are all identical to `s`. -/
def lastNIdentical (d : Nat) (l : List PixelState) (s : PixelState) : Bool :=
  decide (d ≤ l.length) && (l.reverse.take d).all (fun x => decide (x = s))

/-- The mutable session state of `class AppState` (src/main.py lines 63-72),
without the lock object. -/
structure AppState where
  enabled : Bool
  running : Bool
  calibrating : Bool
  current_state : PixelState
  is_moving : Bool
  debounce_count : Nat
  pending_state : PixelState
deriving DecidableEq, Repr

/-- Initial session state from `AppState.__init__`. -/
def initState : AppState :=
  { enabled := false
    running := true
    calibrating := false
    current_state := PixelState.UNKNOWN
    is_moving := false
    debounce_count := 0
    pending_state := PixelState.UNKNOWN }

/-- The debounce fields of the session state. -/
def AppState.deb (st : AppState) : DebSt :=
  ⟨st.pending_state, st.debounce_count, st.current_state⟩

/-- Control position of the process: inside the main `while state.running`
loop of `main` (src/main.py lines 266-318), inside the inner `while True`
loop of `calibrate` (lines 128-146), or after the loop exited (the `finally`
cleanup of lines 322-330 has run, or an exception escaped `main`). -/
inductive Mode where
  | mainLoop
  | calibLoop
  | finished
deriving DecidableEq, Repr

/-- Whole-system state: control position plus session state. -/
structure Sys where
  mode : Mode
  st : AppState
deriving DecidableEq, Repr

/-- The system as the process starts `main`'s loop. -/
def initSys : Sys :=
  ⟨Mode.mainLoop, initState⟩

/-- External happenings during one loop iteration, applied at tick
granularity (the spec's accepted one-tick staleness window): the net effect
of toggle-enable commands (`hotkey_listener.toggle`, tray `on_toggle`), of a
quit command (`quit_app`, `on_quit` — these only ever clear `running`), of
calibrate toggles (`toggle_calibrate`), and the frame the grabber would
return if `sct.grab` is called this iteration (`none` meaning the grab
raises, e.g. region off-screen). -/
structure Input where
  setEnabled : Option Bool
  quit : Bool
  setCalibrating : Option Bool
  grab : Option Frame

/-- Apply the pending external commands to the session flags. -/
def applyCommands (st : AppState) (inp : Input) : AppState :=
  { st with
    enabled := inp.setEnabled.getD st.enabled
    calibrating := inp.setCalibrating.getD st.calibrating
    running := st.running && !inp.quit }

/-- Result of one loop iteration: new system state, the key events issued to
the virtual input device, and how many frame-grab calls were made. -/
structure StepOut where
  sys : Sys
  events : List KeyEvent
  grabs : Nat
deriving DecidableEq, Repr

/-- One iteration of the control loop, mirroring src/main.py lines 265-330
and, in calibration mode, one iteration of `calibrate` (lines 128-146).
In `mainLoop`: the `while state.running` guard is polled first; on exit the
`finally` block issues a key-up iff `is_moving` (the flag itself is not
cleared there, matching lines 324-325). Then calibration is checked; then
the disabled branch (release the key if held, no sampling); then the ACTIVE
body: grab (a raising grab propagates out of the loop, running the `finally`
cleanup), debounce via `observe`, and on a confirmed transition the
actuation of lines 299-304. In `calibLoop`: only the `calibrating` flag is
polled (lines 129-132); the body grabs a frame and prints, issuing no key
events. -/
def sysStep (cfg : Config) (s : Sys) (inp : Input) : StepOut :=
  match s.mode with
  | Mode.finished => ⟨s, [], 0⟩
  | Mode.mainLoop =>
    let st := applyCommands s.st inp
    if st.running = false then
      ⟨⟨Mode.finished, st⟩, if st.is_moving then [KeyEvent.up] else [], 0⟩
    else if st.calibrating = true then
      ⟨⟨Mode.calibLoop, st⟩, [], 0⟩
    else if st.enabled = false then
      ⟨⟨Mode.mainLoop, { st with is_moving := false }⟩,
        if st.is_moving then [KeyEvent.up] else [], 0⟩
    else
      match inp.grab with
      | none => ⟨⟨Mode.finished, st⟩, if st.is_moving then [KeyEvent.up] else [], 1⟩
      | some img =>
        let new := read_pixel_state img cfg
        let d := (observe cfg st.deb new).1
        let confirmed := (observe cfg st.deb new).2
        let act := if confirmed then applyActuation new st.is_moving else ([], st.is_moving)
        ⟨⟨Mode.mainLoop,
          { st with
            pending_state := d.pending_state
            debounce_count := d.debounce_count
            current_state := d.current_state
            is_moving := act.2 }⟩, act.1, 1⟩
  | Mode.calibLoop =>
    let st := applyCommands s.st inp
    if st.calibrating = false then
      ⟨⟨Mode.mainLoop, st⟩, [], 0⟩
    else
      match inp.grab with
      | none => ⟨⟨Mode.finished, st⟩, if st.is_moving then [KeyEvent.up] else [], 1⟩
      | some _ => ⟨⟨Mode.calibLoop, st⟩, [], 1⟩

/-- System state after a list of iterations. -/
def sysRun (cfg : Config) (s : Sys) (l : List Input) : Sys :=
  l.foldl (fun s i => (sysStep cfg s i).sys) s

/-- All key events issued over a list of iterations, in order. -/
def segEvents (cfg : Config) (s : Sys) : List Input → List KeyEvent
  | [] => []
  | i :: rest => (sysStep cfg s i).events ++ segEvents cfg (sysStep cfg s i).sys rest

/-- Tiny configuration for concrete traces: a single sampled pixel. -/
def cfgT : Config :=
  { defaultConfig with sample_size := 1 }

/-- A 1×1 frame whose pixel classifies as GREEN under the default
thresholds. -/
def greenFrame : Frame :=
  [[⟨10, 200, 10, 255⟩]]

/-- An input carrying only a grab result. -/
def grabInput (g : Option Frame) : Input :=
  ⟨none, false, none, g⟩

/-- The enable flag evaluates to false at every iteration of the input list,
threading the net toggle effects forward. -/
def disabledAlong (e : Bool) : List Input → Prop
  | [] => True
  | i :: rest => i.setEnabled.getD e = false ∧ disabledAlong (i.setEnabled.getD e) rest

/-- The running flag evaluates to false at the head iteration (after the
head's commands are applied); this persists to every later iteration because
no command ever sets running back to true. -/
def headStopped (s : Sys) : List Input → Prop
  | [] => True
  | i :: _ => (applyCommands s.st i).running = false

/-- An input carrying an enable command together with a GREEN frame. -/
def inpEnableGreen : Input :=
  ⟨some true, false, none, some greenFrame⟩

/-- An input carrying a disable command (and no usable frame). -/
def inpDisable : Input :=
  ⟨some false, false, none, none⟩

/-- An input with no commands and a GREEN frame available. -/
def inpGreen : Input :=
  grabInput (some greenFrame)

/-- An input with no commands and a failing frame-grab. -/
def inpFail : Input :=
  grabInput none

/-- An input carrying a calibration-on command. -/
def inpCalibOn : Input :=
  ⟨none, false, some true, none⟩

/-- An input carrying a quit command, with a frame still available. -/
def inpQuit : Input :=
  ⟨none, true, none, some greenFrame⟩

/-- A session in the main loop, enabled, with the key held on a confirmed
GREEN. -/
def sMovingEnabled : Sys :=
  ⟨Mode.mainLoop,
    { initState with
      enabled := true
      is_moving := true
      current_state := PixelState.GREEN }⟩

/-- A session in the main loop, enabled, with a partially debounced GREEN
reading pending. -/
def sPendingGreen : Sys :=
  ⟨Mode.mainLoop,
    { initState with
      enabled := true
      pending_state := PixelState.GREEN
      debounce_count := 1 }⟩

/-- A fold accumulating three running sums componentwise equals the triple of
list sums. -/
theorem foldl_add3 (f0 f1 f2 : Nat → Nat) (l : List Nat) (a : Nat × Nat × Nat) :
    l.foldl (fun acc x => (acc.1 + f0 x, acc.2.1 + f1 x, acc.2.2 + f2 x)) a =
      (a.1 + (l.map f0).sum, a.2.1 + (l.map f1).sum, a.2.2 + (l.map f2).sum) := by
  induction l generalizing a with
  | nil => simp
  | cons x xs ih => simp [ih, Nat.add_assoc]

/-- Summing a mapped `List.range` is the `Finset.range` sum. -/
theorem list_sum_range (f : Nat → Nat) (n : Nat) :
    ((List.range n).map f).sum = ∑ x ∈ Finset.range n, f x := by
  induction n with
  | zero => simp
  | succ k ih => simp [List.range_succ, Finset.sum_range_succ, ih]

/-- Characterisation of the leading-run length by prefixes. -/
theorem le_leadRunA_iff (d : Nat) (a : PixelState) (m : List PixelState) :
    d ≤ leadRunA a m ↔
      (d ≤ m.length ∧ (m.take d).all (fun x => decide (x = a)) = true) := by
  induction m generalizing d with
  | nil =>
    cases d <;> simp [leadRunA]
  | cons x rest ih =>
    cases d with
    | zero => simp
    | succ k =>
      by_cases hx : x = a
      · subst hx
        have hstep : leadRunA x (x :: rest) = leadRunA x rest + 1 := by
          simp [leadRunA]
        rw [hstep]
        simp only [Nat.succ_le_succ_iff, ih k, List.length_cons,
          List.take_succ_cons, List.all_cons, decide_eq_true_eq, Bool.and_eq_true]
        tauto
      · simp [leadRunA, hx]

/-- The spec's last-d-identical condition is exactly a bound on the trailing
run length. -/
theorem lastNIdentical_iff_le (d : Nat) (l : List PixelState) (a : PixelState) :
    lastNIdentical d l a = true ↔ d ≤ trailCount a l := by
  unfold lastNIdentical trailCount
  rw [le_leadRunA_iff]
  simp

/-- Processing one more reading at the end of the stream. -/
theorem debRun_concat (cfg : Config) (st : DebSt) (q : List PixelState) (a : PixelState) :
    debRun cfg st (q ++ [a]) = (observe cfg (debRun cfg st q) a).1 := by
  simp [debRun, List.foldl_append]

/-- After an observation the pending state is the raw state just read. -/
theorem observe_pending (cfg : Config) (st : DebSt) (new : PixelState) :
    (observe cfg st new).1.pending_state = new := by
  unfold observe
  split <;> simp only [] <;> split <;> simp_all

/-- After an observation the count is the incremented-or-reset value. -/
theorem observe_count_fst (cfg : Config) (st : DebSt) (new : PixelState) :
    (observe cfg st new).1.debounce_count =
      (if new = st.pending_state then st.debounce_count + 1 else 1) := by
  unfold observe
  split <;> (dsimp only; split <;> rfl)

/-- The debounce accumulator invariant: after any raw prefix, the pending
state is the last reading (UNKNOWN initially) and the count is the length of
the trailing block of readings equal to it. -/
theorem debRun_invariant (cfg : Config) (p : List PixelState) :
    (debRun cfg debInit p).pending_state = p.getLastD PixelState.UNKNOWN ∧
    (debRun cfg debInit p).debounce_count =
      trailCount (p.getLastD PixelState.UNKNOWN) p := by
  induction p using List.reverseRecOn with
  | nil => simp [debRun, debInit, trailCount, leadRunA]
  | append_singleton q a ih =>
    rw [debRun_concat]
    obtain ⟨hp, hc⟩ := ih
    have htrail : trailCount a (q ++ [a]) = leadRunA a q.reverse + 1 := by
      simp [trailCount, leadRunA]
    refine ⟨by simpa using observe_pending cfg _ a, ?_⟩
    rw [observe_count_fst, hp, hc]
    rw [List.getLastD_concat, htrail]
    by_cases ha : a = q.getLastD PixelState.UNKNOWN
    · rw [if_pos ha, ← ha]
      rfl
    · rw [if_neg ha]
      have hzero : leadRunA a q.reverse = 0 := by
        cases hq : q.reverse with
        | nil => simp [leadRunA]
        | cons b tail =>
          have hb : q.getLastD PixelState.UNKNOWN = b := by
            have : q.reverse.head? = some b := by simp [hq]
            rw [List.head?_reverse] at this
            simp [List.getLastD_eq_getLast?, this]
          have : b ≠ a := fun hba => ha (hba ▸ hb.symm)
          simp [leadRunA, this]
      omega

/-- The count reached when one more reading `a` arrives is the trailing run
length of `p ++ [a]`. -/
theorem observe_count (cfg : Config) (p : List PixelState) (a : PixelState) :
    (if a = (debRun cfg debInit p).pending_state then
        (debRun cfg debInit p).debounce_count + 1 else 1) =
      trailCount a (p ++ [a]) := by
  obtain ⟨hp, hc⟩ := debRun_invariant cfg p
  have htrail : trailCount a (p ++ [a]) = leadRunA a p.reverse + 1 := by
    simp [trailCount, leadRunA, Nat.add_comm]
  rw [hp, hc, htrail]
  by_cases ha : a = p.getLastD PixelState.UNKNOWN
  · rw [if_pos ha, ← ha]
    rfl
  · rw [if_neg ha]
    have hzero : leadRunA a p.reverse = 0 := by
      cases hq : p.reverse with
      | nil => simp [leadRunA]
      | cons b tail =>
        have hb : p.getLastD PixelState.UNKNOWN = b := by
          have : p.reverse.head? = some b := by simp [hq]
          rw [List.head?_reverse] at this
          simp [List.getLastD_eq_getLast?, this]
        have : b ≠ a := fun hba => ha (hba ▸ hb.symm)
        simp [leadRunA, this]
    omega

/-- The confirmation flag of a single observation, unfolded. -/
theorem observe_flag (cfg : Config) (st : DebSt) (new : PixelState) :
    (observe cfg st new).2 = true ↔
      (cfg.debounce_frames ≤
          (if new = st.pending_state then st.debounce_count + 1 else 1) ∧
        new ≠ st.current_state) := by
  unfold observe
  split <;> (dsimp only; split <;> simp_all)

/-- A confirmed observation records the raw state as the new confirmed
state. -/
theorem observe_confirm_current (cfg : Config) (st : DebSt) (a : PixelState) :
    (observe cfg st a).2 = true → (observe cfg st a).1.current_state = a := by
  unfold observe
  split <;> (dsimp only; split <;> simp_all)

/-- Claim C2: starting from pending=UNKNOWN, count=0, confirmed=UNKNOWN, a
confirmed transition is emitted at a reading if and only if the last
`debounce_frames` raw readings are identical and that state differs from the
previously confirmed state; the accumulator does not reset on confirmation,
so an identical reading right after a confirmation emits no transition; and
with debounce_frames=2 the raw stream [GREEN, RED, GREEN, GREEN] yields
exactly one confirmed transition, to GREEN, at the 4th reading. -/
theorem claim_C2_debounce_transition_iff :
    (∀ (cfg : Config) (p : List PixelState) (a : PixelState),
      ((observe cfg (debRun cfg debInit p) a).2 = true ↔
        (lastNIdentical cfg.debounce_frames (p ++ [a]) a = true ∧
          a ≠ (debRun cfg debInit p).current_state))) ∧
    (∀ (cfg : Config) (st : DebSt) (a : PixelState),
      (observe cfg st a).2 = true → (observe cfg (observe cfg st a).1 a).2 = false) ∧
    debFlags defaultConfig debInit
        [PixelState.GREEN, PixelState.RED, PixelState.GREEN, PixelState.GREEN] =
      [false, false, false, true] ∧
    (debRun defaultConfig debInit
        [PixelState.GREEN, PixelState.RED, PixelState.GREEN,
          PixelState.GREEN]).current_state = PixelState.GREEN := by
  refine ⟨?_, ?_, by decide, by decide⟩
  · intro cfg p a
    rw [observe_flag, observe_count cfg p a, lastNIdentical_iff_le]
  · intro cfg st a h
    have hcur := observe_confirm_current cfg st a h
    rw [← Bool.not_eq_true, observe_flag]
    simp [hcur]

/-- Commands only touch the three flags. -/
@[simp]
theorem applyCommands_is_moving (st : AppState) (i : Input) :
    (applyCommands st i).is_moving = st.is_moving := rfl

@[simp]
theorem applyCommands_current (st : AppState) (i : Input) :
    (applyCommands st i).current_state = st.current_state := rfl

@[simp]
theorem applyCommands_pending (st : AppState) (i : Input) :
    (applyCommands st i).pending_state = st.pending_state := rfl

@[simp]
theorem applyCommands_count (st : AppState) (i : Input) :
    (applyCommands st i).debounce_count = st.debounce_count := rfl

theorem applyCommands_enabled (st : AppState) (i : Input) :
    (applyCommands st i).enabled = i.setEnabled.getD st.enabled := rfl

theorem applyCommands_running (st : AppState) (i : Input) :
    (applyCommands st i).running = (st.running && !i.quit) := rfl

/-- A cleared running flag can never be set again by commands. -/
theorem applyCommands_running_false (st : AppState) (i : Input)
    (h : st.running = false) : (applyCommands st i).running = false := by
  simp [applyCommands_running, h]

/-- If no command enables, a disabled session stays disabled. -/
theorem applyCommands_enabled_false (st : AppState) (i : Input)
    (h : st.enabled = false) (hi : i.setEnabled ≠ some true) :
    (applyCommands st i).enabled = false := by
  rw [applyCommands_enabled]
  cases hb : i.setEnabled with
  | none => simpa using h
  | some b => cases b <;> simp_all

/-- Once the loop has exited, nothing further happens. -/
theorem sysStep_finished (cfg : Config) (st0 : AppState) (inp : Input) :
    sysStep cfg ⟨Mode.finished, st0⟩ inp = ⟨⟨Mode.finished, st0⟩, [], 0⟩ := rfl

/-- Main loop, guard fails: the loop exits and the `finally` cleanup releases
the key iff held (without clearing the flag, as in the source). -/
theorem sysStep_main_exit (cfg : Config) (st0 : AppState) (inp : Input)
    (hr : (applyCommands st0 inp).running = false) :
    sysStep cfg ⟨Mode.mainLoop, st0⟩ inp =
      ⟨⟨Mode.finished, applyCommands st0 inp⟩,
        if st0.is_moving then [KeyEvent.up] else [], 0⟩ := by
  simp only [sysStep]
  rw [if_pos hr]
  simp

/-- Main loop, calibration flag set: enter the calibrate loop. -/
theorem sysStep_main_calib (cfg : Config) (st0 : AppState) (inp : Input)
    (hr : (applyCommands st0 inp).running = true)
    (hc : (applyCommands st0 inp).calibrating = true) :
    sysStep cfg ⟨Mode.mainLoop, st0⟩ inp =
      ⟨⟨Mode.calibLoop, applyCommands st0 inp⟩, [], 0⟩ := by
  simp only [sysStep]
  rw [if_neg (by simp [hr]), if_pos hc]

/-- Main loop, disabled branch: no sampling, release the key iff held. -/
theorem sysStep_main_disabled (cfg : Config) (st0 : AppState) (inp : Input)
    (hr : (applyCommands st0 inp).running = true)
    (hc : (applyCommands st0 inp).calibrating = false)
    (he : (applyCommands st0 inp).enabled = false) :
    sysStep cfg ⟨Mode.mainLoop, st0⟩ inp =
      ⟨⟨Mode.mainLoop, { applyCommands st0 inp with is_moving := false }⟩,
        if st0.is_moving then [KeyEvent.up] else [], 0⟩ := by
  simp only [sysStep]
  rw [if_neg (by simp [hr]), if_neg (by simp [hc]), if_pos he]
  simp

/-- Main loop, ACTIVE branch with a failing grab: the exception propagates,
the `finally` cleanup runs, the process is done. -/
theorem sysStep_main_fail (cfg : Config) (st0 : AppState) (inp : Input)
    (hr : (applyCommands st0 inp).running = true)
    (hc : (applyCommands st0 inp).calibrating = false)
    (he : (applyCommands st0 inp).enabled = true)
    (hg : inp.grab = none) :
    sysStep cfg ⟨Mode.mainLoop, st0⟩ inp =
      ⟨⟨Mode.finished, applyCommands st0 inp⟩,
        if st0.is_moving then [KeyEvent.up] else [], 1⟩ := by
  simp only [sysStep]
  rw [if_neg (by simp [hr]), if_neg (by simp [hc]), if_neg (by simp [he]), hg]
  simp

/-- Main loop, ACTIVE branch with a grabbed frame: sample, classify,
debounce, and actuate on a confirmed transition. -/
theorem sysStep_main_active (cfg : Config) (st0 : AppState) (inp : Input) (img : Frame)
    (hr : (applyCommands st0 inp).running = true)
    (hc : (applyCommands st0 inp).calibrating = false)
    (he : (applyCommands st0 inp).enabled = true)
    (hg : inp.grab = some img) :
    sysStep cfg ⟨Mode.mainLoop, st0⟩ inp =
      (let st := applyCommands st0 inp
       let new := read_pixel_state img cfg
       let d := (observe cfg st.deb new).1
       let act := if (observe cfg st.deb new).2 then applyActuation new st.is_moving
         else ([], st.is_moving)
       ⟨⟨Mode.mainLoop,
         { st with
           pending_state := d.pending_state
           debounce_count := d.debounce_count
           current_state := d.current_state
           is_moving := act.2 }⟩, act.1, 1⟩) := by
  simp only [sysStep]
  rw [if_neg (by simp [hr]), if_neg (by simp [hc]), if_neg (by simp [he]), hg]

/-- Calibrate loop, flag cleared: break back into the main loop. -/
theorem sysStep_calib_exit (cfg : Config) (st0 : AppState) (inp : Input)
    (hc : (applyCommands st0 inp).calibrating = false) :
    sysStep cfg ⟨Mode.calibLoop, st0⟩ inp =
      ⟨⟨Mode.mainLoop, applyCommands st0 inp⟩, [], 0⟩ := by
  simp only [sysStep]
  rw [if_pos hc]

/-- Calibrate loop, failing grab: the exception propagates out through
`main`'s `finally` cleanup. -/
theorem sysStep_calib_fail (cfg : Config) (st0 : AppState) (inp : Input)
    (hc : (applyCommands st0 inp).calibrating = true)
    (hg : inp.grab = none) :
    sysStep cfg ⟨Mode.calibLoop, st0⟩ inp =
      ⟨⟨Mode.finished, applyCommands st0 inp⟩,
        if st0.is_moving then [KeyEvent.up] else [], 1⟩ := by
  simp only [sysStep]
  rw [if_neg (by simp [hc]), hg]
  simp

/-- Calibrate loop, successful grab: print a reading and keep looping;
only the calibrating flag is polled, never the running flag. -/
theorem sysStep_calib_go (cfg : Config) (st0 : AppState) (inp : Input) (img : Frame)
    (hc : (applyCommands st0 inp).calibrating = true)
    (hg : inp.grab = some img) :
    sysStep cfg ⟨Mode.calibLoop, st0⟩ inp =
      ⟨⟨Mode.calibLoop, applyCommands st0 inp⟩, [], 1⟩ := by
  simp only [sysStep]
  rw [if_neg (by simp [hc]), hg]

/-- If no input carries a net enable command, a disabled flag stays false. -/
theorem disabledAlong_of_noEnable (l : List Input)
    (h : ∀ i ∈ l, i.setEnabled ≠ some true) : disabledAlong false l := by
  induction l with
  | nil => trivial
  | cons i rest ih =>
    have hi : i.setEnabled.getD false = false := by
      cases hb : i.setEnabled with
      | none => rfl
      | some b =>
        cases b with
        | false => rfl
        | true => exact absurd hb (h i (List.mem_cons_self i rest))
    refine ⟨hi, ?_⟩
    rw [hi]
    exact ih (fun j hj => h j (List.mem_cons_of_mem i hj))

/-- After the loop has exited, no further key events are ever issued. -/
theorem finished_segEvents (cfg : Config) (l : List Input) :
    ∀ s : Sys, s.mode = Mode.finished → segEvents cfg s l = [] := by
  induction l with
  | nil => intro s _; rfl
  | cons i rest ih =>
    rintro ⟨mode, st0⟩ h
    cases mode with
    | finished =>
      simp only [segEvents, sysStep_finished, List.nil_append]
      exact ih _ rfl
    | mainLoop => simp at h
    | calibLoop => simp at h

/-- Segment safety while disabled: from a disabled session state, as long as
no input re-enables, every key event issued is a key-up, at most one is
issued, and none at all if the key is not held. -/
theorem disabled_segEvents (cfg : Config) (l : List Input) :
    ∀ s : Sys, disabledAlong s.st.enabled l →
      (s.st.is_moving = false → segEvents cfg s l = []) ∧
      (segEvents cfg s l = [] ∨ segEvents cfg s l = [KeyEvent.up]) := by
  induction l with
  | nil => intro s _; exact ⟨fun _ => rfl, Or.inl rfl⟩
  | cons i rest ih =>
    rintro ⟨mode, st0⟩ ⟨hi, hl⟩
    rw [hi] at hl
    have hpe : (applyCommands st0 i).enabled = false := hi
    have hih : ∀ s' : Sys, s'.st.enabled = false → disabledAlong s'.st.enabled rest := by
      intro s' h
      rw [h]
      exact hl
    cases mode with
    | finished =>
      have htot : segEvents cfg ⟨Mode.finished, st0⟩ (i :: rest) = [] :=
        finished_segEvents cfg (i :: rest) _ rfl
      exact ⟨fun _ => htot, Or.inl htot⟩
    | mainLoop =>
      rcases Bool.eq_false_or_eq_true ((applyCommands st0 i).running) with hrun | hrun
      · rcases Bool.eq_false_or_eq_true ((applyCommands st0 i).calibrating) with hcal | hcal
        · have hstep := sysStep_main_calib cfg st0 i hrun hcal
          have hrec := ih ⟨Mode.calibLoop, applyCommands st0 i⟩ (hih _ hpe)
          simp only [segEvents, hstep, List.nil_append]
          exact ⟨fun hm => hrec.1 (by simpa using hm), hrec.2⟩
        · have hstep := sysStep_main_disabled cfg st0 i hrun hcal hpe
          have htail :
              segEvents cfg ⟨Mode.mainLoop, { applyCommands st0 i with is_moving := false }⟩
                rest = [] := by
            exact (ih ⟨Mode.mainLoop, { applyCommands st0 i with is_moving := false }⟩
              (hih _ hpe)).1 rfl
          simp only [segEvents, hstep, htail, List.append_nil]
          cases hm : st0.is_moving <;> simp
      · have hstep := sysStep_main_exit cfg st0 i hrun
        have htail : segEvents cfg ⟨Mode.finished, applyCommands st0 i⟩ rest = [] :=
          finished_segEvents cfg rest _ rfl
        simp only [segEvents, hstep, htail, List.append_nil]
        cases hm : st0.is_moving <;> simp
    | calibLoop =>
      rcases Bool.eq_false_or_eq_true ((applyCommands st0 i).calibrating) with hcal | hcal
      case inr =>
        have hstep := sysStep_calib_exit cfg st0 i hcal
        have hrec := ih ⟨Mode.mainLoop, applyCommands st0 i⟩ (hih _ hpe)
        simp only [segEvents, hstep, List.nil_append]
        exact ⟨fun hm => hrec.1 (by simpa using hm), hrec.2⟩
      case inl =>
        cases hg : i.grab with
        | none =>
          have hstep := sysStep_calib_fail cfg st0 i hcal hg
          have htail : segEvents cfg ⟨Mode.finished, applyCommands st0 i⟩ rest = [] :=
            finished_segEvents cfg rest _ rfl
          simp only [segEvents, hstep, htail, List.append_nil]
          cases hm : st0.is_moving <;> simp
        | some img =>
          have hstep := sysStep_calib_go cfg st0 i img hcal hg
          have hrec := ih ⟨Mode.calibLoop, applyCommands st0 i⟩ (hih _ hpe)
          simp only [segEvents, hstep, List.nil_append]
          exact ⟨fun hm => hrec.1 (by simpa using hm), hrec.2⟩

/-- Segment safety after shutdown: once running is false (no command ever
sets it back), every key event issued is a key-up, at most one is issued,
and none at all if the key is not held. -/
theorem stopped_segEvents (cfg : Config) (l : List Input) :
    ∀ s : Sys, headStopped s l →
      (s.st.is_moving = false → segEvents cfg s l = []) ∧
      (segEvents cfg s l = [] ∨ segEvents cfg s l = [KeyEvent.up]) := by
  induction l with
  | nil => intro s _; exact ⟨fun _ => rfl, Or.inl rfl⟩
  | cons i rest ih =>
    rintro ⟨mode, st0⟩ hhd
    have hpr : (applyCommands st0 i).running = false := hhd
    have hnext : ∀ s' : Sys, s'.st.running = false → headStopped s' rest := by
      intro s' h
      cases rest with
      | nil => trivial
      | cons j tail => exact applyCommands_running_false s'.st j h
    cases mode with
    | finished =>
      have htot : segEvents cfg ⟨Mode.finished, st0⟩ (i :: rest) = [] :=
        finished_segEvents cfg (i :: rest) _ rfl
      exact ⟨fun _ => htot, Or.inl htot⟩
    | mainLoop =>
      have hstep := sysStep_main_exit cfg st0 i hpr
      have htail : segEvents cfg ⟨Mode.finished, applyCommands st0 i⟩ rest = [] :=
        finished_segEvents cfg rest _ rfl
      simp only [segEvents, hstep, htail, List.append_nil]
      cases hm : st0.is_moving <;> simp
    | calibLoop =>
      rcases Bool.eq_false_or_eq_true ((applyCommands st0 i).calibrating) with hcal | hcal
      case inr =>
        have hstep := sysStep_calib_exit cfg st0 i hcal
        have hrec := ih ⟨Mode.mainLoop, applyCommands st0 i⟩ (hnext _ hpr)
        simp only [segEvents, hstep, List.nil_append]
        exact ⟨fun hm => hrec.1 (by simpa using hm), hrec.2⟩
      case inl =>
        cases hg : i.grab with
        | none =>
          have hstep := sysStep_calib_fail cfg st0 i hcal hg
          have htail : segEvents cfg ⟨Mode.finished, applyCommands st0 i⟩ rest = [] :=
            finished_segEvents cfg rest _ rfl
          simp only [segEvents, hstep, htail, List.append_nil]
          cases hm : st0.is_moving <;> simp
        | some img =>
          have hstep := sysStep_calib_go cfg st0 i img hcal hg
          have hrec := ih ⟨Mode.calibLoop, applyCommands st0 i⟩ (hnext _ hpr)
          simp only [segEvents, hstep, List.nil_append]
          exact ⟨fun hm => hrec.1 (by simpa using hm), hrec.2⟩

/-- Claim C6: the classifier is a pure total function following the rule order
GREEN (g > green_threshold and r < off_channel_max), then RED
(r > red_threshold and g < off_channel_max), then BLACK (r,g,b all < 50),
else UNKNOWN; exactly one state is returned; and on the default thresholds it
maps (10,200,10) to GREEN, (200,10,10) to RED, (5,5,5) to BLACK and
(120,120,120) to UNKNOWN. -/
theorem claim_C6_classifier_rule_order :
    (∀ (cfg : Config) (r g b : Nat),
      (classify_pixel r g b cfg = PixelState.GREEN ↔
        (cfg.green_threshold < g ∧ r < cfg.off_channel_max)) ∧
      (classify_pixel r g b cfg = PixelState.RED ↔
        (¬(cfg.green_threshold < g ∧ r < cfg.off_channel_max) ∧
          cfg.red_threshold < r ∧ g < cfg.off_channel_max)) ∧
      (classify_pixel r g b cfg = PixelState.BLACK ↔
        (¬(cfg.green_threshold < g ∧ r < cfg.off_channel_max) ∧
          ¬(cfg.red_threshold < r ∧ g < cfg.off_channel_max) ∧
          r < 50 ∧ g < 50 ∧ b < 50)) ∧
      (classify_pixel r g b cfg = PixelState.UNKNOWN ↔
        (¬(cfg.green_threshold < g ∧ r < cfg.off_channel_max) ∧
          ¬(cfg.red_threshold < r ∧ g < cfg.off_channel_max) ∧
          ¬(r < 50 ∧ g < 50 ∧ b < 50)))) ∧
    classify_pixel 10 200 10 defaultConfig = PixelState.GREEN ∧
    classify_pixel 200 10 10 defaultConfig = PixelState.RED ∧
    classify_pixel 5 5 5 defaultConfig = PixelState.BLACK ∧
    classify_pixel 120 120 120 defaultConfig = PixelState.UNKNOWN := by
  refine ⟨fun cfg r g b => ?_, by decide, by decide, by decide, by decide⟩
  unfold classify_pixel
  split
  · simp_all
  · split
    · simp_all
    · split <;> simp_all

/-- Claim C8: actuation is idempotent with respect to the held-key flag:
applying the same confirmed state twice in a row issues no second key event;
a key-down is issued exactly when the state is GREEN and the key is not held;
a key-up exactly when the state is RED, BLACK or UNKNOWN and the key is held;
otherwise no event. -/
theorem claim_C8_actuation_idempotent :
    ∀ (s : PixelState) (m : Bool),
      (applyActuation s (applyActuation s m).2).1 = [] ∧
      ((applyActuation s m).1 = [KeyEvent.down] ↔ (s = PixelState.GREEN ∧ m = false)) ∧
      ((applyActuation s m).1 = [KeyEvent.up] ↔
        ((s = PixelState.RED ∨ s = PixelState.BLACK ∨ s = PixelState.UNKNOWN) ∧ m = true)) ∧
      ((applyActuation s m).1 = [] ∨ (applyActuation s m).1 = [KeyEvent.down] ∨
        (applyActuation s m).1 = [KeyEvent.up]) := by
  decide

/-- Claim C7: for every grid of pixel values returned by the frame-grabber,
the sampler returns, per channel, the sum of that channel over all N² sampled
pixels integer-divided (truncated) by N², with red taken from index 2, green
from index 1 and blue from index 0 of the collaborator's BGRA layout. -/
theorem claim_C7_sampler_truncated_average :
    ∀ (img : Frame) (cfg : Config),
      sampleAvg img cfg =
        ((∑ y ∈ Finset.range cfg.sample_size, ∑ x ∈ Finset.range cfg.sample_size,
            (framePixel img x y).px2) / (cfg.sample_size * cfg.sample_size),
         (∑ y ∈ Finset.range cfg.sample_size, ∑ x ∈ Finset.range cfg.sample_size,
            (framePixel img x y).px1) / (cfg.sample_size * cfg.sample_size),
         (∑ y ∈ Finset.range cfg.sample_size, ∑ x ∈ Finset.range cfg.sample_size,
            (framePixel img x y).px0) / (cfg.sample_size * cfg.sample_size)) := by
  intro img cfg
  unfold sampleAvg
  simp only [foldl_add3, list_sum_range, Nat.zero_add]

/-- Commands leave the debounce fields untouched. -/
theorem applyCommands_deb (st : AppState) (i : Input) :
    (applyCommands st i).deb = st.deb := rfl

/-- The actuation only sets the held flag on a GREEN confirmation. -/
theorem applyActuation_snd_green :
    ∀ (new : PixelState) (m : Bool),
      (applyActuation new m).2 = true → new = PixelState.GREEN := by
  decide

/-- A key-down is only ever issued for a GREEN confirmation. -/
theorem applyActuation_down_green :
    ∀ (new : PixelState) (m : Bool),
      KeyEvent.down ∈ (applyActuation new m).1 → new = PixelState.GREEN := by
  decide

/-- An observation either keeps the confirmed state or confirms the raw
state. -/
theorem observe_current (cfg : Config) (st : DebSt) (new : PixelState) :
    (observe cfg st new).1.current_state = st.current_state ∨
      ((observe cfg st new).2 = true ∧ (observe cfg st new).1.current_state = new) := by
  unfold observe
  split <;> (dsimp only; split <;> simp)

/-- An unconfirmed observation leaves the confirmed state unchanged. -/
theorem observe_current_unconfirmed (cfg : Config) (st : DebSt) (new : PixelState)
    (h : (observe cfg st new).2 = false) :
    (observe cfg st new).1.current_state = st.current_state := by
  rcases observe_current cfg st new with h1 | ⟨hflag, h2⟩
  · exact h1
  · rw [h] at hflag
    exact absurd hflag (by decide)

/-- Any step that issues a key-down leaves the confirmed state GREEN. -/
theorem sysStep_down_green (cfg : Config) (s : Sys) (inp : Input) :
    KeyEvent.down ∈ (sysStep cfg s inp).events →
    (sysStep cfg s inp).sys.st.current_state = PixelState.GREEN := by
  obtain ⟨mode, st0⟩ := s
  cases mode with
  | finished =>
    rw [sysStep_finished]
    simp
  | mainLoop =>
    rcases Bool.eq_false_or_eq_true ((applyCommands st0 inp).running) with hrun | hrun
    · rcases Bool.eq_false_or_eq_true ((applyCommands st0 inp).calibrating) with hcal | hcal
      · rw [sysStep_main_calib cfg st0 inp hrun hcal]
        simp
      · rcases Bool.eq_false_or_eq_true ((applyCommands st0 inp).enabled) with hen | hen
        · cases hg : inp.grab with
          | none =>
            rw [sysStep_main_fail cfg st0 inp hrun hcal hen hg]
            cases st0.is_moving <;> simp
          | some img =>
            rw [sysStep_main_active cfg st0 inp img hrun hcal hen hg]
            dsimp only
            by_cases hconf :
                (observe cfg (applyCommands st0 inp).deb (read_pixel_state img cfg)).2 = true
            · rw [if_pos hconf]
              intro hdown
              have h1 := observe_confirm_current cfg (applyCommands st0 inp).deb
                (read_pixel_state img cfg) hconf
              have h2 := applyActuation_down_green (read_pixel_state img cfg)
                (applyCommands st0 inp).is_moving hdown
              simp_all
            · rw [if_neg hconf]
              simp
        · rw [sysStep_main_disabled cfg st0 inp hrun hcal hen]
          cases st0.is_moving <;> simp
    · rw [sysStep_main_exit cfg st0 inp hrun]
      cases st0.is_moving <;> simp
  | calibLoop =>
    rcases Bool.eq_false_or_eq_true ((applyCommands st0 inp).calibrating) with hcal | hcal
    · cases hg : inp.grab with
      | none =>
        rw [sysStep_calib_fail cfg st0 inp hcal hg]
        cases st0.is_moving <;> simp
      | some img =>
        rw [sysStep_calib_go cfg st0 inp img hcal hg]
        simp
    · rw [sysStep_calib_exit cfg st0 inp hcal]
      simp

/-- One step preserves the held-implies-GREEN invariant. -/
theorem sysStep_inv (cfg : Config) (s : Sys) (inp : Input)
    (h : s.st.is_moving = true → s.st.current_state = PixelState.GREEN) :
    (sysStep cfg s inp).sys.st.is_moving = true →
    (sysStep cfg s inp).sys.st.current_state = PixelState.GREEN := by
  obtain ⟨mode, st0⟩ := s
  cases mode with
  | finished =>
    rw [sysStep_finished]
    exact h
  | mainLoop =>
    rcases Bool.eq_false_or_eq_true ((applyCommands st0 inp).running) with hrun | hrun
    · rcases Bool.eq_false_or_eq_true ((applyCommands st0 inp).calibrating) with hcal | hcal
      · rw [sysStep_main_calib cfg st0 inp hrun hcal]
        intro hm
        exact h (by simpa using hm)
      · rcases Bool.eq_false_or_eq_true ((applyCommands st0 inp).enabled) with hen | hen
        · cases hg : inp.grab with
          | none =>
            rw [sysStep_main_fail cfg st0 inp hrun hcal hen hg]
            intro hm
            exact h (by simpa using hm)
          | some img =>
            rw [sysStep_main_active cfg st0 inp img hrun hcal hen hg]
            dsimp only
            by_cases hconf :
                (observe cfg (applyCommands st0 inp).deb (read_pixel_state img cfg)).2 = true
            · rw [if_pos hconf]
              intro hmv
              have h1 := observe_confirm_current cfg (applyCommands st0 inp).deb
                (read_pixel_state img cfg) hconf
              have h2 := applyActuation_snd_green (read_pixel_state img cfg)
                (applyCommands st0 inp).is_moving hmv
              simp_all
            · rw [if_neg hconf]
              intro hmv
              have h1 := observe_current_unconfirmed cfg (applyCommands st0 inp).deb
                (read_pixel_state img cfg) (Bool.eq_false_iff.mpr hconf)
              have h2 := h (by simpa using hmv)
              simp_all [AppState.deb]
        · rw [sysStep_main_disabled cfg st0 inp hrun hcal hen]
          intro hm
          simp at hm
    · rw [sysStep_main_exit cfg st0 inp hrun]
      intro hm
      exact h (by simpa using hm)
  | calibLoop =>
    rcases Bool.eq_false_or_eq_true ((applyCommands st0 inp).calibrating) with hcal | hcal
    · cases hg : inp.grab with
      | none =>
        rw [sysStep_calib_fail cfg st0 inp hcal hg]
        intro hm
        exact h (by simpa using hm)
      | some img =>
        rw [sysStep_calib_go cfg st0 inp img hcal hg]
        intro hm
        exact h (by simpa using hm)
    · rw [sysStep_calib_exit cfg st0 inp hcal]
      intro hm
      exact h (by simpa using hm)

/-- The held-implies-GREEN invariant carries along any run. -/
theorem sysRun_inv (cfg : Config) (l : List Input) :
    ∀ s : Sys, (s.st.is_moving = true → s.st.current_state = PixelState.GREEN) →
      (sysRun cfg s l).st.is_moving = true →
      (sysRun cfg s l).st.current_state = PixelState.GREEN := by
  induction l with
  | nil => intro s h; exact h
  | cons i rest ih =>
    intro s h
    exact ih (sysStep cfg s i).sys (sysStep_inv cfg s i h)

/-- Claim C9: a tick taken in the DISABLED state makes no frame-grab call,
issues a key-up if and only if the key is held, and afterwards the key is
not held. -/
theorem claim_C9_disabled_tick (cfg : Config) (s : Sys) (inp : Input)
    (hm : s.mode = Mode.mainLoop)
    (hr : (applyCommands s.st inp).running = true)
    (hc : (applyCommands s.st inp).calibrating = false)
    (he : (applyCommands s.st inp).enabled = false) :
    (sysStep cfg s inp).grabs = 0 ∧
    (sysStep cfg s inp).events = (if s.st.is_moving then [KeyEvent.up] else []) ∧
    (sysStep cfg s inp).sys.st.is_moving = false := by
  obtain ⟨mode, st0⟩ := s
  cases mode with
  | mainLoop =>
    rw [sysStep_main_disabled cfg st0 inp hr hc he]
    exact ⟨rfl, rfl, rfl⟩
  | calibLoop => simp at hm
  | finished => simp at hm

/-- Witness for C9 at a concrete held, enabled state receiving a disable. -/
theorem claim_C9_disabled_tick_witness :
    (sysStep cfgT sMovingEnabled inpDisable).grabs = 0 ∧
    (sysStep cfgT sMovingEnabled inpDisable).events =
      (if sMovingEnabled.st.is_moving then [KeyEvent.up] else []) ∧
    (sysStep cfgT sMovingEnabled inpDisable).sys.st.is_moving = false :=
  claim_C9_disabled_tick cfgT sMovingEnabled inpDisable rfl (by decide) (by decide)
    (by decide)

/-- Claim C10: from the initial state, whenever the held flag `is_moving` is
true the confirmed state is GREEN; and any step that issues a key-down
leaves the confirmed state GREEN. -/
theorem claim_C10_held_implies_green :
    (∀ (cfg : Config) (l : List Input),
      (sysRun cfg initSys l).st.is_moving = true →
      (sysRun cfg initSys l).st.current_state = PixelState.GREEN) ∧
    (∀ (cfg : Config) (s : Sys) (inp : Input),
      KeyEvent.down ∈ (sysStep cfg s inp).events →
      (sysStep cfg s inp).sys.st.current_state = PixelState.GREEN) := by
  constructor
  · intro cfg l
    exact sysRun_inv cfg l initSys (fun h => absurd h (by decide))
  · intro cfg s inp
    exact sysStep_down_green cfg s inp

/-- Witness for C10 on a trace that confirms GREEN and holds the key. -/
theorem claim_C10_held_implies_green_witness :
    (sysRun cfgT initSys [inpEnableGreen, inpGreen]).st.current_state =
      PixelState.GREEN :=
  claim_C10_held_implies_green.1 cfgT [inpEnableGreen, inpGreen] (by decide)

/-- Claim C4 fails on the code: the debounce accumulator is NOT reset on
disable or re-enable. Concretely: enable with one GREEN reading (pending
GREEN, count 1), disable for a tick (accumulator untouched), re-enable with
a single GREEN sample — the transition to GREEN is confirmed immediately
from that one sample, issuing a key-down. -/
theorem claim_C4_counterexample :
    (sysRun cfgT initSys [inpEnableGreen, inpDisable]).st.enabled = false ∧
    (sysRun cfgT initSys [inpEnableGreen, inpDisable]).st.pending_state =
      PixelState.GREEN ∧
    (sysRun cfgT initSys [inpEnableGreen, inpDisable]).st.debounce_count = 1 ∧
    segEvents cfgT (sysRun cfgT initSys [inpEnableGreen, inpDisable])
      [inpEnableGreen] = [KeyEvent.down] ∧
    (sysRun cfgT initSys
        [inpEnableGreen, inpDisable, inpEnableGreen]).st.current_state =
      PixelState.GREEN := by
  decide

/-- Claim C4 amended: a DISABLED tick leaves the debounce accumulator
(pending state, count) and the confirmed state unchanged — there is no reset
to UNKNOWN/0, so counts carried over from before the disable survive a
disable/re-enable round-trip. -/
theorem claim_C4_amended_no_debounce_reset (cfg : Config) (s : Sys) (inp : Input)
    (hm : s.mode = Mode.mainLoop)
    (hr : (applyCommands s.st inp).running = true)
    (hc : (applyCommands s.st inp).calibrating = false)
    (he : (applyCommands s.st inp).enabled = false) :
    (sysStep cfg s inp).sys.st.pending_state = s.st.pending_state ∧
    (sysStep cfg s inp).sys.st.debounce_count = s.st.debounce_count ∧
    (sysStep cfg s inp).sys.st.current_state = s.st.current_state := by
  obtain ⟨mode, st0⟩ := s
  cases mode with
  | mainLoop =>
    rw [sysStep_main_disabled cfg st0 inp hr hc he]
    exact ⟨rfl, rfl, rfl⟩
  | calibLoop => simp at hm
  | finished => simp at hm

/-- Witness for the amended C4 at a concrete partially debounced state. -/
theorem claim_C4_amended_no_debounce_reset_witness :
    (sysStep cfgT sPendingGreen inpDisable).sys.st.pending_state =
      sPendingGreen.st.pending_state ∧
    (sysStep cfgT sPendingGreen inpDisable).sys.st.debounce_count =
      sPendingGreen.st.debounce_count ∧
    (sysStep cfgT sPendingGreen inpDisable).sys.st.current_state =
      sPendingGreen.st.current_state :=
  claim_C4_amended_no_debounce_reset cfgT sPendingGreen inpDisable rfl (by decide)
    (by decide) (by decide)

/-- Claim C3 fails on the code: a failing grab in an ACTIVE tick is not
caught; the loop terminates instead of retrying. Concretely: after GREEN is
confirmed (key held), a failing grab issues the cleanup key-up (an
actuation), the loop is finished, and the next interval performs no grab and
changes nothing. -/
theorem claim_C3_counterexample :
    segEvents cfgT initSys [inpEnableGreen, inpGreen, inpFail, inpGreen] =
      [KeyEvent.down, KeyEvent.up] ∧
    (sysRun cfgT initSys [inpEnableGreen, inpGreen, inpFail]).mode =
      Mode.finished ∧
    (sysStep cfgT (sysRun cfgT initSys [inpEnableGreen, inpGreen, inpFail])
        inpGreen).grabs = 0 ∧
    (sysStep cfgT (sysRun cfgT initSys [inpEnableGreen, inpGreen, inpFail])
        inpGreen).sys =
      sysRun cfgT initSys [inpEnableGreen, inpGreen, inpFail] := by
  decide

/-- Claim C3 amended: when the frame-grabber fails during an ACTIVE tick, no
debounce or key-down happens for that tick; the exception terminates the
control loop (the `finally` cleanup issues a key-up iff the key was held),
and no further iteration ever grabs or actuates — the loop does not retry. -/
theorem claim_C3_amended_capture_error_fatal (cfg : Config) (s : Sys) (inp : Input)
    (hm : s.mode = Mode.mainLoop)
    (hr : (applyCommands s.st inp).running = true)
    (hc : (applyCommands s.st inp).calibrating = false)
    (he : (applyCommands s.st inp).enabled = true)
    (hg : inp.grab = none) :
    (sysStep cfg s inp).sys.mode = Mode.finished ∧
    (sysStep cfg s inp).events = (if s.st.is_moving then [KeyEvent.up] else []) ∧
    KeyEvent.down ∉ (sysStep cfg s inp).events ∧
    (∀ inp2 : Input,
      sysStep cfg (sysStep cfg s inp).sys inp2 = ⟨(sysStep cfg s inp).sys, [], 0⟩) := by
  obtain ⟨mode, st0⟩ := s
  cases mode with
  | mainLoop =>
    rw [sysStep_main_fail cfg st0 inp hr hc he hg]
    refine ⟨rfl, rfl, ?_, fun inp2 => rfl⟩
    cases st0.is_moving <;> simp
  | calibLoop => simp at hm
  | finished => simp at hm

/-- Witness for the amended C3 at a concrete held, enabled state. -/
theorem claim_C3_amended_capture_error_fatal_witness :
    (sysStep cfgT sMovingEnabled inpFail).sys.mode = Mode.finished ∧
    (sysStep cfgT sMovingEnabled inpFail).events =
      (if sMovingEnabled.st.is_moving then [KeyEvent.up] else []) :=
  ⟨(claim_C3_amended_capture_error_fatal cfgT sMovingEnabled inpFail rfl (by decide)
      (by decide) (by decide) rfl).1,
   (claim_C3_amended_capture_error_fatal cfgT sMovingEnabled inpFail rfl (by decide)
      (by decide) (by decide) rfl).2.1⟩

/-- Claim C5 fails on the code: the calibrate loop polls only the
calibrating flag, never the running flag. Concretely: enter calibration,
then quit (running=false) while calibrating stays true — the calibrate loop
keeps iterating (and grabbing) instead of exiting within one iteration. -/
theorem claim_C5_calibration_ignores_running :
    (sysRun cfgT initSys [inpCalibOn, inpQuit]).st.running = false ∧
    (sysRun cfgT initSys [inpCalibOn, inpQuit]).mode = Mode.calibLoop ∧
    (sysStep cfgT (sysRun cfgT initSys [inpCalibOn, inpQuit]) inpGreen).sys.mode =
      Mode.calibLoop ∧
    (sysStep cfgT (sysRun cfgT initSys [inpCalibOn, inpQuit]) inpGreen).grabs = 1 ∧
    (sysStep cfgT
        (sysStep cfgT (sysRun cfgT initSys [inpCalibOn, inpQuit]) inpGreen).sys
        inpGreen).sys.mode = Mode.calibLoop := by
  decide

/-- Events that are empty or a single key-up contain no key-down. -/
theorem no_down_of_up_shape (ev : List KeyEvent)
    (h : ev = [] ∨ ev = [KeyEvent.up]) : KeyEvent.down ∉ ev := by
  rcases h with h | h <;> rw [h] <;> simp

/-- Claim C1 fails on the code as literally stated: after an enabled
true→false transition with the key not held, re-enabling lets the very next
key event be a key-down. Concretely: enable with one GREEN reading, disable
(no event, key not held), re-enable with another GREEN reading — the next
key event issued after the transition is a key-down. -/
theorem claim_C1_counterexample :
    (sysRun cfgT initSys [inpEnableGreen]).st.enabled = true ∧
    (sysRun cfgT initSys [inpEnableGreen]).st.is_moving = false ∧
    (sysRun cfgT initSys [inpEnableGreen, inpDisable]).st.enabled = false ∧
    segEvents cfgT (sysRun cfgT initSys [inpEnableGreen])
      [inpDisable, inpEnableGreen] = [KeyEvent.down] := by
  decide

/-- Claim C1 amended: (i) after an enabled true→false transition, as long as
no later command re-enables, every key event issued is a key-up, at most one
is issued, and none if the key was not held at the transition; (ii) the same
holds after a running true→false transition, over the entire rest of the
trace (running is never set back); (iii) on the first tick after the
transition that polls the flags outside calibration mode, a held key is
released at once. In particular no key-down is ever issued while the flag
remains false, and the key is not left held. -/
theorem claim_C1_transition_safety :
    (∀ (cfg : Config) (s : Sys) (inp : Input) (l : List Input),
      s.st.enabled = true → inp.setEnabled = some false →
      (∀ i ∈ l, i.setEnabled ≠ some true) →
      (s.st.is_moving = false → segEvents cfg s (inp :: l) = []) ∧
      (segEvents cfg s (inp :: l) = [] ∨ segEvents cfg s (inp :: l) = [KeyEvent.up]) ∧
      KeyEvent.down ∉ segEvents cfg s (inp :: l)) ∧
    (∀ (cfg : Config) (s : Sys) (inp : Input) (l : List Input),
      s.st.running = true → inp.quit = true →
      (s.st.is_moving = false → segEvents cfg s (inp :: l) = []) ∧
      (segEvents cfg s (inp :: l) = [] ∨ segEvents cfg s (inp :: l) = [KeyEvent.up]) ∧
      KeyEvent.down ∉ segEvents cfg s (inp :: l)) ∧
    (∀ (cfg : Config) (s : Sys) (inp : Input),
      s.mode = Mode.mainLoop → s.st.is_moving = true →
      (applyCommands s.st inp).running = true →
      (applyCommands s.st inp).calibrating = false →
      (applyCommands s.st inp).enabled = false →
      (sysStep cfg s inp).events = [KeyEvent.up] ∧
      (sysStep cfg s inp).sys.st.is_moving = false) := by
  refine ⟨?_, ?_, ?_⟩
  · intro cfg s inp l _ hset hno
    have hAlong : disabledAlong s.st.enabled (inp :: l) := by
      refine ⟨?_, ?_⟩
      · rw [hset]
        rfl
      · rw [hset]
        exact disabledAlong_of_noEnable l hno
    have H := disabled_segEvents cfg (inp :: l) s hAlong
    exact ⟨H.1, H.2, no_down_of_up_shape _ H.2⟩
  · intro cfg s inp l _ hquit
    have hHead : headStopped s (inp :: l) := by
      show (applyCommands s.st inp).running = false
      rw [applyCommands_running, hquit]
      simp
    have H := stopped_segEvents cfg (inp :: l) s hHead
    exact ⟨H.1, H.2, no_down_of_up_shape _ H.2⟩
  · intro cfg s inp hm hmov hr hc he
    obtain ⟨mode, st0⟩ := s
    cases mode with
    | mainLoop =>
      rw [sysStep_main_disabled cfg st0 inp hr hc he]
      have hmov' : st0.is_moving = true := hmov
      rw [hmov']
      exact ⟨rfl, rfl⟩
    | calibLoop => simp at hm
    | finished => simp at hm

/-- Witness for the amended C1: a held, enabled session receiving a disable
command releases the key on that very tick. -/
theorem claim_C1_transition_safety_witness :
    (sysStep cfgT sMovingEnabled inpDisable).events = [KeyEvent.up] ∧
    (sysStep cfgT sMovingEnabled inpDisable).sys.st.is_moving = false :=
  claim_C1_transition_safety.2.2 cfgT sMovingEnabled inpDisable rfl rfl (by decide)
    (by decide) (by decide)

/-- Witness for C2: on the prefix [GREEN, RED, GREEN] a further GREEN
reading satisfies the last-2-identical condition, differs from the confirmed
state, and is therefore confirmed. -/
theorem claim_C2_debounce_transition_iff_witness :
    (observe defaultConfig
        (debRun defaultConfig debInit
          [PixelState.GREEN, PixelState.RED, PixelState.GREEN])
        PixelState.GREEN).2 = true :=
  (claim_C2_debounce_transition_iff.1 defaultConfig
      [PixelState.GREEN, PixelState.RED, PixelState.GREEN] PixelState.GREEN).mpr
    ⟨by decide, by decide⟩
/-- Witness for C6: the GREEN rule applied at a concrete sample. -/
theorem claim_C6_classifier_rule_order_witness :
    classify_pixel 10 200 10 defaultConfig = PixelState.GREEN :=
  (claim_C6_classifier_rule_order.1 defaultConfig 10 200 10).1.mpr (by decide)
